import Mathlib

/-!
Shallow embedding of `src/vector/vector.h`: the raw buffer type `RawMemory<T>`
and the dynamic array `Vector<T>`.

A buffer is modelled as a list of slots; `some x` is a live (constructed)
element holding the value `x`, `none` is an uninitialized slot.  Pointers into
the buffer are modelled as slot indices (`pos - begin()`), and element values
are pure, so the copy and move overloads of an operation coincide (a move of a
value is a copy; a moved-from slot keeps its value, as an `int` would).
-/

/-- `RawMemory<T>`: an owning buffer whose capacity is the number of slots. -/
structure RawMemory (α : Type) where
  slots : List (Option α)
deriving Repr, DecidableEq

/-- `RawMemory::Capacity()`. -/
def RawMemory.Capacity {α : Type} (m : RawMemory α) : Nat := m.slots.length

/-- `RawMemory(size_t capacity)`: `Allocate(capacity)`, all slots uninitialized. -/
def RawMemory.allocate (α : Type) (n : Nat) : RawMemory α := ⟨List.replicate n none⟩

/-- `RawMemory::Swap(other)`: exchanges storage and capacity.  Returns the pair
(what `this` becomes, what `other` becomes). -/
def RawMemory.Swap {α : Type} (a b : RawMemory α) : RawMemory α × RawMemory α := (b, a)

/-- `RawMemory(RawMemory&& other)`: `buffer_ = std::exchange(other.buffer_, nullptr)`,
`capacity_ = other.capacity_`, then `other.capacity_ = 0`.  Returns the pair
(the newly constructed buffer, what `other` becomes). -/
def RawMemory.moveConstruct {α : Type} (other : RawMemory α) : RawMemory α × RawMemory α :=
  (⟨other.slots⟩, ⟨[]⟩)

/-- `RawMemory::operator=(RawMemory&& rhs)`: the body is `Swap(rhs)`.  Returns the
pair (what `this` becomes, what `rhs` becomes). -/
def RawMemory.moveAssign {α : Type} (dst rhs : RawMemory α) : RawMemory α × RawMemory α :=
  RawMemory.Swap dst rhs

/-- Writes `f k` into slot `start + k` for each `k < n`, in increasing `k`,
leaving every other slot as in `dst`.

This models the slot-writing std algorithms the source uses
(`uninitialized_copy_n` / `uninitialized_move_n` / `uninitialized_value_construct_n`
/ `destroy_n` / `copy_n` / `std::move` / `std::move_backward`): at every call
site below the algorithm reads only slots it has not yet overwritten, so
reading through `f` from the snapshot taken at the call is faithful to the
in-place execution. -/
def writeN {α : Type} (dst : List (Option α)) (start n : Nat) (f : Nat → Option α) :
    List (Option α) :=
  match n with
  | 0 => dst
  | Nat.succ m => (writeN dst start m f).set (start + m) (f m)

theorem writeN_length {α : Type} (dst : List (Option α)) (start n : Nat)
    (f : Nat → Option α) : (writeN dst start n f).length = dst.length := by
  induction n with
  | zero => rfl
  | succ m ih => simp [writeN, List.length_set, ih]

theorem writeN_getD {α : Type} (dst : List (Option α)) (start n : Nat)
    (f : Nat → Option α) (i : Nat) (hi : i < dst.length) :
    (writeN dst start n f).getD i none =
      if start ≤ i ∧ i < start + n then f (i - start) else dst.getD i none := by
  induction n with
  | zero =>
    show dst.getD i none = _
    rw [if_neg (by omega)]
  | succ m ih =>
    by_cases h : i = start + m
    · subst h
      have hlen : start + m < (writeN dst start m f).length := by
        rw [writeN_length]; exact hi
      have heq : (writeN dst start (m + 1) f).getD (start + m) none
          = ((writeN dst start m f).set (start + m) (f m)).getD (start + m) none := rfl
      rw [heq, List.getD_eq_getElem?_getD, List.getElem?_set_eq_of_lt _ hlen,
        if_pos (by omega : start ≤ start + m ∧ start + m < start + (m + 1))]
      simp
    · have heq : (writeN dst start (m + 1) f).getD i none
          = ((writeN dst start m f).set (start + m) (f m)).getD i none := rfl
      rw [heq, List.getD_eq_getElem?_getD, List.getElem?_set_ne (by omega),
        ← List.getD_eq_getElem?_getD, ih]
      by_cases hin : start ≤ i ∧ i < start + m
      · rw [if_pos hin, if_pos (by omega)]
      · rw [if_neg hin, if_neg (by omega)]

/-- `Vector<T>`: a `RawMemory` buffer plus the count of live elements.  Slots
`[0, size)` hold the live elements; slots `[size, capacity)` are spare. -/
structure Vector (α : Type) where
  data : RawMemory α
  size : Nat
deriving Repr, DecidableEq

/-- `Vector::Size()`. -/
def Vector.Size {α : Type} (v : Vector α) : Nat := v.size

/-- `Vector::Capacity()` (the buffer's capacity). -/
def Vector.Capacity {α : Type} (v : Vector α) : Nat := v.data.Capacity

/-- The live element at index `i`, i.e. `operator[](i)` restricted to the live
range: `some x` iff `i < size` and slot `i` holds `x`. -/
def Vector.get? {α : Type} (v : Vector α) (i : Nat) : Option α :=
  if i < v.size then v.data.slots.getD i none else none

/-- The sequence of live elements `[begin(), end())` in order. -/
def Vector.elems {α : Type} (v : Vector α) : List α :=
  (v.data.slots.take v.size).filterMap id

/-- Validity invariant: `size_ ≤ Capacity()` and every slot below `size_` holds a
live element. -/
def Vector.WF {α : Type} (v : Vector α) : Prop :=
  v.size ≤ v.Capacity ∧ ∀ i ∈ List.range v.size, (v.data.slots.getD i none).isSome = true

instance {α : Type} (v : Vector α) : Decidable v.WF := by
  unfold Vector.WF; infer_instance

/-- `Vector()`: null buffer, size 0. -/
def Vector.mkEmpty (α : Type) : Vector α := ⟨⟨[]⟩, 0⟩

/-- `Vector(size_t size)`: buffer of exactly `size`, then
`uninitialized_value_construct_n(begin(), size)`; `d` is the value-initialized
element of type `T` (e.g. `0` for `int`). -/
def Vector.mkSized {α : Type} (d : α) (n : Nat) : Vector α :=
  ⟨⟨writeN (List.replicate n none) 0 n (fun _ => some d)⟩, n⟩

/-- `Vector(const Vector& other)`: buffer of exactly `other.size_`, then
`uninitialized_copy_n(other.begin(), other.Size(), begin())`. -/
def Vector.copyConstruct {α : Type} (other : Vector α) : Vector α :=
  ⟨⟨writeN (List.replicate other.size none) 0 other.size
      (fun k => other.data.slots.getD k none)⟩, other.size⟩

/-- `Vector(Vector&& other)`: `data_(std::move(other.data_))` (the `RawMemory`
move constructor), `size_(other.size_)`, then `other.size_ = 0`.  Returns the
pair (the new vector, what `other` becomes). -/
def Vector.moveConstruct {α : Type} (other : Vector α) : Vector α × Vector α :=
  (⟨(RawMemory.moveConstruct other.data).1, other.size⟩,
   ⟨(RawMemory.moveConstruct other.data).2, 0⟩)

/-- `Vector::operator=(Vector&& rhs)` for distinct objects:
`data_ = std::move(rhs.data_)` (which is `RawMemory::Swap`), `size_ = rhs.size_`,
`rhs.size_ = 0`.  Returns the pair (what `this` becomes, what `rhs` becomes). -/
def Vector.moveAssign {α : Type} (dst rhs : Vector α) : Vector α × Vector α :=
  (⟨(RawMemory.moveAssign dst.data rhs.data).1, rhs.size⟩,
   ⟨(RawMemory.moveAssign dst.data rhs.data).2, 0⟩)

/-- `v = std::move(v)`, i.e. `operator=(Vector&&)` when `this == &rhs`: tracing
the body under aliasing, `data_ = std::move(rhs.data_)` is `data_.Swap(data_)`
(identity), `size_ = rhs.size_` reads the object's own size (identity), and
`rhs.size_ = 0` then zeroes it.  The buffer is untouched. -/
def Vector.moveAssignSelf {α : Type} (v : Vector α) : Vector α := ⟨v.data, 0⟩

/-- `Vector::operator=(const Vector& rhs)` for distinct objects.  If
`rhs.size_ > data_.Capacity()`: copy-construct a temporary from `rhs` and swap
it in.  Otherwise in place: `copy_n(rhs.begin(), min(Size(), rhs.Size()), begin())`,
then destroy the excess (`rhs` shorter) or `uninitialized_copy_n` the extra
tail (`rhs` longer), then `size_ = rhs.size_`. -/
def Vector.copyAssign {α : Type} (a rhs : Vector α) : Vector α :=
  if rhs.size > a.Capacity then
    Vector.copyConstruct rhs
  else
    let b0 := writeN a.data.slots 0 (min a.size rhs.size)
      (fun k => rhs.data.slots.getD k none)
    let b1 :=
      if rhs.size < a.size then
        writeN b0 rhs.size (a.size - rhs.size) (fun _ => none)
      else
        writeN b0 a.size (rhs.size - a.size) (fun k => rhs.data.slots.getD (a.size + k) none)
    ⟨⟨b1⟩, rhs.size⟩

/-- `Vector::Reserve(new_capacity)`: no-op unless `new_capacity > Capacity()`;
otherwise allocate exactly `new_capacity` slots, transfer the `size_` live
elements (move-if-safe / copy-otherwise, identical on pure values), destroy the
old ones and swap buffers. -/
def Vector.Reserve {α : Type} (v : Vector α) (newCapacity : Nat) : Vector α :=
  if newCapacity ≤ v.Capacity then v
  else
    ⟨⟨writeN (List.replicate newCapacity none) 0 v.size
        (fun k => v.data.slots.getD k none)⟩, v.size⟩

/-- `Vector::Swap(other)`: swaps buffers and sizes.  Returns the pair
(what `this` becomes, what `other` becomes). -/
def Vector.SwapOp {α : Type} (a b : Vector α) : Vector α × Vector α := (b, a)

/-- `Vector::Resize(new_size)`: no-op if equal; destroy the trailing
`size_ - new_size` slots if shrinking; otherwise `Reserve(new_size)` then
value-construct the new tail.  `d` is the value-initialized element. -/
def Vector.Resize {α : Type} (v : Vector α) (d : α) (newSize : Nat) : Vector α :=
  if newSize = v.size then v
  else if newSize < v.size then
    ⟨⟨writeN v.data.slots newSize (v.size - newSize) (fun _ => none)⟩, newSize⟩
  else
    ⟨⟨writeN (v.Reserve newSize).data.slots v.size (newSize - v.size)
        (fun _ => some d)⟩, newSize⟩

/-- `Vector::PushBack` (both overloads coincide on pure values).  At capacity:
allocate `size_ == 0 ? 1 : size_ * 2` slots, construct the new element at slot
`size_` first, transfer the old elements, destroy them, swap buffers.
Otherwise construct in place at slot `size_`.  Then `++size_`. -/
def Vector.PushBack {α : Type} (v : Vector α) (value : α) : Vector α :=
  if v.Size = v.Capacity then
    let newCap := if v.size = 0 then 1 else v.size * 2
    let b0 := (List.replicate newCap (none : Option α)).set v.size (some value)
    ⟨⟨writeN b0 0 v.size (fun k => v.data.slots.getD k none)⟩, v.size + 1⟩
  else
    ⟨⟨v.data.slots.set v.size (some value)⟩, v.size + 1⟩

/-- `Vector::Emplace(pos, args...)` at `i = pos - begin()`, where `x` is the
element the arguments construct.  At capacity: allocate
`size_ == 0 ? 1 : size_ * 2`, construct `x` at slot `i` of the new buffer,
transfer prefix `[0, i)` and suffix `[i, size_)` around it.  Otherwise, if
`pos != end()`: move-construct `Back()` into slot `size_`,
`move_backward([i, size_ - 1) , end at size_)`, and assign `x` into slot `i`;
if `pos == end()`: construct in place at slot `size_`.  Then `++size_`.
Returns the pair (vector after, index of the returned iterator). -/
def Vector.Emplace {α : Type} (v : Vector α) (i : Nat) (x : α) : Vector α × Nat :=
  if v.Size = v.Capacity then
    let newCap := if v.size = 0 then 1 else v.size * 2
    let b0 := (List.replicate newCap (none : Option α)).set i (some x)
    let b1 := writeN b0 0 i (fun k => v.data.slots.getD k none)
    let b2 := writeN b1 (i + 1) (v.size - i) (fun k => v.data.slots.getD (i + k) none)
    (⟨⟨b2⟩, v.size + 1⟩, i)
  else
    if i ≠ v.size then
      let b0 := v.data.slots.set v.size (v.data.slots.getD (v.size - 1) none)
      let b1 := writeN b0 (i + 1) (v.size - 1 - i) (fun k => v.data.slots.getD (i + k) none)
      (⟨⟨b1.set i (some x)⟩, v.size + 1⟩, i)
    else
      (⟨⟨v.data.slots.set v.size (some x)⟩, v.size + 1⟩, i)

/-- `Vector::Insert(pos, value)`: forwards to `Emplace`. -/
def Vector.Insert {α : Type} (v : Vector α) (i : Nat) (value : α) : Vector α × Nat :=
  Vector.Emplace v i value

/-- `Vector::PopBack()`: destroys the last live element and decrements `size_`
(precondition `size_ != 0`). -/
def Vector.PopBack {α : Type} (v : Vector α) : Vector α :=
  ⟨⟨v.data.slots.set (v.size - 1) none⟩, v.size - 1⟩

/-- `Vector::Erase(pos)` at `i = pos - begin()`:
`std::move(next(it), end(), it)` shifts slots `[i + 1, size_)` one left, then
`PopBack()`.  Returns the pair (vector after, index of the returned iterator). -/
def Vector.Erase {α : Type} (v : Vector α) (i : Nat) : Vector α × Nat :=
  (Vector.PopBack ⟨⟨writeN v.data.slots i (v.size - 1 - i)
      (fun k => v.data.slots.getD (i + 1 + k) none)⟩, v.size⟩, i)

/-- The mutating operations on a single vector — those that do not exchange
state with a second live vector (`Swap` and the move operations are treated
separately). -/
inductive VOp (α : Type) where
  | reserve (n : Nat)
  | resize (d : α) (n : Nat)
  | pushBack (x : α)
  | emplace (i : Nat) (x : α)
  | insert (i : Nat) (x : α)
  | popBack
  | erase (i : Nat)
  | copyAssign (rhs : Vector α)

/-- Applying a single-vector operation. -/
def VOp.apply {α : Type} (op : VOp α) (v : Vector α) : Vector α :=
  match op with
  | .reserve n => v.Reserve n
  | .resize d n => v.Resize d n
  | .pushBack x => v.PushBack x
  | .emplace i x => (v.Emplace i x).1
  | .insert i x => (v.Insert i x).1
  | .popBack => v.PopBack
  | .erase i => (v.Erase i).1
  | .copyAssign rhs => v.copyAssign rhs

/-! Helper lemmas. -/

theorem Vector.get?_mk {α : Type} (l : List (Option α)) (s i : Nat) :
    (Vector.mk ⟨l⟩ s).get? i = if i < s then l.getD i none else none := rfl

theorem Vector.Capacity_mk {α : Type} (l : List (Option α)) (s : Nat) :
    (Vector.mk ⟨l⟩ s).Capacity = l.length := rfl

theorem Vector.Reserve_size {α : Type} (v : Vector α) (n : Nat) :
    (v.Reserve n).size = v.size := by
  unfold Vector.Reserve; split <;> rfl

theorem Vector.Reserve_Capacity {α : Type} (v : Vector α) (n : Nat) :
    (v.Reserve n).Capacity = max v.Capacity n := by
  unfold Vector.Reserve
  split
  · omega
  · rename_i h
    show (writeN _ _ _ _).length = _
    rw [writeN_length, List.length_replicate]
    omega

theorem Vector.Reserve_slots_getD {α : Type} (v : Vector α) (n : Nat)
    (hsz : v.size ≤ v.Capacity) (i : Nat) (hi : i < v.size) :
    (v.Reserve n).data.slots.getD i none = v.data.slots.getD i none := by
  unfold Vector.Reserve
  split
  · rfl
  · rename_i h
    show (writeN _ _ _ _).getD i none = _
    rw [writeN_getD _ _ _ _ _ (by rw [List.length_replicate]; omega),
      if_pos (by omega : 0 ≤ i ∧ i < 0 + v.size), Nat.sub_zero]

theorem Vector.Reserve_get? {α : Type} (v : Vector α) (n : Nat)
    (hsz : v.size ≤ v.Capacity) (i : Nat) :
    (v.Reserve n).get? i = v.get? i := by
  by_cases hi : i < v.size
  · show (if i < (v.Reserve n).size then (v.Reserve n).data.slots.getD i none else none) = _
    rw [Vector.Reserve_size, Vector.Reserve_slots_getD v n hsz i hi]
    rfl
  · show (if i < (v.Reserve n).size then _ else none) = (if i < v.size then _ else none)
    rw [Vector.Reserve_size, if_neg hi, if_neg hi]

theorem Vector.PushBack_size {α : Type} (v : Vector α) (x : α) :
    (v.PushBack x).size = v.size + 1 := by
  unfold Vector.PushBack; split <;> rfl

theorem Vector.PushBack_Capacity_grow {α : Type} (v : Vector α) (x : α)
    (h : v.Size = v.Capacity) :
    (v.PushBack x).Capacity = max 1 (2 * v.Capacity) := by
  unfold Vector.PushBack
  rw [if_pos h]
  show (writeN _ _ _ _).length = _
  rw [writeN_length, List.length_set, List.length_replicate]
  have hvc : v.Size = v.size := rfl
  split <;> omega

theorem Vector.PushBack_Capacity_nogrow {α : Type} (v : Vector α) (x : α)
    (h : ¬ v.Size = v.Capacity) :
    (v.PushBack x).Capacity = v.Capacity := by
  unfold Vector.PushBack
  rw [if_neg h]
  show (v.data.slots.set _ _).length = _
  rw [List.length_set]
  rfl

theorem Vector.Capacity_le_PushBack {α : Type} (v : Vector α) (x : α) :
    v.Capacity ≤ (v.PushBack x).Capacity := by
  by_cases h : v.Size = v.Capacity
  · rw [Vector.PushBack_Capacity_grow v x h]
    have : v.Size = v.size := rfl
    omega
  · rw [Vector.PushBack_Capacity_nogrow v x h]

theorem Vector.PushBack_get?_lt {α : Type} (v : Vector α) (x : α) (i : Nat)
    (hi : i < v.size) : (v.PushBack x).get? i = v.get? i := by
  unfold Vector.PushBack
  split
  · rename_i h
    have hvs : v.Size = v.size := rfl
    have hvc : v.Capacity = v.data.slots.length := rfl
    rw [Vector.get?_mk, if_pos (by omega)]
    have hcap : i < ((List.replicate (if v.size = 0 then 1 else v.size * 2)
        (none : Option α)).set v.size (some x)).length := by
      rw [List.length_set, List.length_replicate]
      split <;> omega
    rw [writeN_getD _ _ _ _ _ hcap, if_pos (by omega : 0 ≤ i ∧ i < 0 + v.size)]
    show v.data.slots.getD (i - 0) none = _
    rw [Nat.sub_zero]
    show _ = v.get? i
    unfold Vector.get?
    rw [if_pos hi]
  · rw [Vector.get?_mk, if_pos (by omega)]
    rw [List.getD_eq_getElem?_getD, List.getElem?_set_ne (by omega),
      ← List.getD_eq_getElem?_getD]
    unfold Vector.get?
    rw [if_pos hi]

theorem Vector.PushBack_get?_last {α : Type} (v : Vector α) (x : α)
    (hsz : v.size ≤ v.Capacity) : (v.PushBack x).get? v.size = some x := by
  unfold Vector.PushBack
  have hvs : v.Size = v.size := rfl
  have hvc : v.Capacity = v.data.slots.length := rfl
  split
  · rename_i h
    rw [Vector.get?_mk, if_pos (by omega)]
    have hcap : v.size < ((List.replicate (if v.size = 0 then 1 else v.size * 2)
        (none : Option α)).set v.size (some x)).length := by
      rw [List.length_set, List.length_replicate]
      split <;> omega
    rw [writeN_getD _ _ _ _ _ hcap, if_neg (by omega), List.getD_eq_getElem?_getD,
      List.getElem?_set_eq_of_lt _ (by rw [List.length_replicate]; split <;> omega)]
    rfl
  · rename_i h
    rw [Vector.get?_mk, if_pos (by omega)]
    rw [List.getD_eq_getElem?_getD,
      List.getElem?_set_eq_of_lt _ (by omega : v.size < v.data.slots.length)]
    rfl

theorem Vector.Emplace_size {α : Type} (v : Vector α) (i : Nat) (x : α) :
    (v.Emplace i x).1.size = v.size + 1 := by
  unfold Vector.Emplace
  split
  · rfl
  · split <;> rfl

theorem Vector.Emplace_idx {α : Type} (v : Vector α) (i : Nat) (x : α) :
    (v.Emplace i x).2 = i := by
  unfold Vector.Emplace
  split
  · rfl
  · split <;> rfl

theorem Vector.Emplace_Capacity {α : Type} (v : Vector α) (i : Nat) (x : α) :
    (v.Emplace i x).1.Capacity =
      if v.Size = v.Capacity then max 1 (2 * v.Capacity) else v.Capacity := by
  unfold Vector.Emplace
  have hvs : v.Size = v.size := rfl
  have hvc : v.Capacity = v.data.slots.length := rfl
  split
  · rename_i h
    simp only [Vector.Capacity, RawMemory.Capacity, writeN_length, List.length_set,
      List.length_replicate]
    split <;> omega
  · rename_i h
    split
    · simp only [Vector.Capacity, RawMemory.Capacity, List.length_set, writeN_length]
    · simp only [Vector.Capacity, RawMemory.Capacity, List.length_set]

theorem Vector.Capacity_le_Emplace {α : Type} (v : Vector α) (i : Nat) (x : α) :
    v.Capacity ≤ (v.Emplace i x).1.Capacity := by
  rw [Vector.Emplace_Capacity]
  have hvs : v.Size = v.size := rfl
  split <;> omega

theorem Vector.Emplace_get?_at {α : Type} (v : Vector α) (i : Nat) (x : α)
    (hsz : v.size ≤ v.Capacity) (hi : i ≤ v.size) :
    (v.Emplace i x).1.get? i = some x := by
  unfold Vector.Emplace
  have hvs : v.Size = v.size := rfl
  have hvc : v.Capacity = v.data.slots.length := rfl
  split
  · rename_i h
    rw [Vector.get?_mk, if_pos (by omega)]
    have hlen0 : ((List.replicate (if v.size = 0 then 1 else v.size * 2)
        (none : Option α)).set i (some x)).length
        = (if v.size = 0 then 1 else v.size * 2) := by
      rw [List.length_set, List.length_replicate]
    have hin : i < ((List.replicate (if v.size = 0 then 1 else v.size * 2)
        (none : Option α)).set i (some x)).length := by
      rw [hlen0]; split <;> omega
    rw [writeN_getD _ _ _ _ _ (by rw [writeN_length]; exact hin), if_neg (by omega),
      writeN_getD _ _ _ _ _ hin, if_neg (by omega),
      List.getD_eq_getElem?_getD,
      List.getElem?_set_eq_of_lt _ (by rw [List.length_replicate]; split <;> omega)]
    rfl
  · rename_i h
    split
    · rename_i hne
      rw [Vector.get?_mk, if_pos (by omega)]
      rw [List.getD_eq_getElem?_getD,
        List.getElem?_set_eq_of_lt _
          (by rw [writeN_length, List.length_set]; omega)]
      rfl
    · rename_i hne
      have hie : i = v.size := by omega
      rw [Vector.get?_mk, if_pos (by omega), hie]
      rw [List.getD_eq_getElem?_getD,
        List.getElem?_set_eq_of_lt _ (by omega : v.size < v.data.slots.length)]
      rfl

theorem Vector.Emplace_get?_lt {α : Type} (v : Vector α) (i : Nat) (x : α)
    (hsz : v.size ≤ v.Capacity) (hi : i ≤ v.size) (j : Nat) (hj : j < i) :
    (v.Emplace i x).1.get? j = v.get? j := by
  have hjv : v.get? j = v.data.slots.getD j none := by
    unfold Vector.get?; rw [if_pos (by omega)]
  unfold Vector.Emplace
  have hvs : v.Size = v.size := rfl
  have hvc : v.Capacity = v.data.slots.length := rfl
  split
  · rename_i h
    rw [Vector.get?_mk, if_pos (by omega), hjv]
    have hlen0 : ((List.replicate (if v.size = 0 then 1 else v.size * 2)
        (none : Option α)).set i (some x)).length
        = (if v.size = 0 then 1 else v.size * 2) := by
      rw [List.length_set, List.length_replicate]
    have hjn : j < ((List.replicate (if v.size = 0 then 1 else v.size * 2)
        (none : Option α)).set i (some x)).length := by
      rw [hlen0]; split <;> omega
    rw [writeN_getD _ _ _ _ _ (by rw [writeN_length]; exact hjn), if_neg (by omega),
      writeN_getD _ _ _ _ _ hjn, if_pos (by omega : 0 ≤ j ∧ j < 0 + i), Nat.sub_zero]
  · rename_i h
    split
    · rename_i hne
      rw [Vector.get?_mk, if_pos (by omega), hjv]
      rw [List.getD_eq_getElem?_getD, List.getElem?_set_ne (by omega),
        ← List.getD_eq_getElem?_getD,
        writeN_getD _ _ _ _ _ (by rw [List.length_set]; omega), if_neg (by omega),
        List.getD_eq_getElem?_getD, List.getElem?_set_ne (by omega),
        ← List.getD_eq_getElem?_getD]
    · rename_i hne
      have hie : i = v.size := by omega
      rw [Vector.get?_mk, if_pos (by omega), hjv]
      rw [List.getD_eq_getElem?_getD, List.getElem?_set_ne (by omega),
        ← List.getD_eq_getElem?_getD]

theorem Vector.Emplace_get?_shift {α : Type} (v : Vector α) (i : Nat) (x : α)
    (hsz : v.size ≤ v.Capacity) (hi : i ≤ v.size) (j : Nat) (hj1 : i ≤ j)
    (hj2 : j < v.size) :
    (v.Emplace i x).1.get? (j + 1) = v.get? j := by
  have hjv : v.get? j = v.data.slots.getD j none := by
    unfold Vector.get?; rw [if_pos (by omega)]
  unfold Vector.Emplace
  have hvs : v.Size = v.size := rfl
  have hvc : v.Capacity = v.data.slots.length := rfl
  split
  · rename_i h
    rw [Vector.get?_mk, if_pos (by omega), hjv]
    have hlen0 : ((List.replicate (if v.size = 0 then 1 else v.size * 2)
        (none : Option α)).set i (some x)).length
        = (if v.size = 0 then 1 else v.size * 2) := by
      rw [List.length_set, List.length_replicate]
    have hjn : j + 1 < ((List.replicate (if v.size = 0 then 1 else v.size * 2)
        (none : Option α)).set i (some x)).length := by
      rw [hlen0]; split <;> omega
    rw [writeN_getD _ _ _ _ _ (by rw [writeN_length]; exact hjn),
      if_pos (by omega : i + 1 ≤ j + 1 ∧ j + 1 < i + 1 + (v.size - i))]
    have : i + (j + 1 - (i + 1)) = j := by omega
    rw [this]
  · rename_i h
    split
    · rename_i hne
      rw [Vector.get?_mk, if_pos (by omega), hjv]
      rw [List.getD_eq_getElem?_getD, List.getElem?_set_ne (by omega),
        ← List.getD_eq_getElem?_getD]
      by_cases htop : j + 1 = v.size
      · rw [writeN_getD _ _ _ _ _ (by rw [List.length_set]; omega), if_neg (by omega),
          htop, List.getD_eq_getElem?_getD,
          List.getElem?_set_eq_of_lt _ (by omega : v.size < v.data.slots.length)]
        have : v.size - 1 = j := by omega
        rw [this]
        rfl
      · rw [writeN_getD _ _ _ _ _ (by rw [List.length_set]; omega),
          if_pos (by omega : i + 1 ≤ j + 1 ∧ j + 1 < i + 1 + (v.size - 1 - i))]
        have : i + (j + 1 - (i + 1)) = j := by omega
        rw [this]
    · rename_i hne
      omega

theorem Vector.slots_length {α : Type} (v : Vector α) :
    v.data.slots.length = v.Capacity := rfl

theorem Vector.PopBack_Capacity {α : Type} (v : Vector α) :
    v.PopBack.Capacity = v.Capacity := by
  simp only [Vector.PopBack, Vector.Capacity, RawMemory.Capacity, List.length_set]

theorem Vector.Erase_size {α : Type} (v : Vector α) (i : Nat) :
    (v.Erase i).1.size = v.size - 1 := rfl

theorem Vector.Erase_idx {α : Type} (v : Vector α) (i : Nat) :
    (v.Erase i).2 = i := rfl

theorem Vector.Erase_Capacity {α : Type} (v : Vector α) (i : Nat) :
    (v.Erase i).1.Capacity = v.Capacity := by
  simp only [Vector.Erase, Vector.PopBack, Vector.Capacity, RawMemory.Capacity,
    List.length_set, writeN_length]

theorem Vector.Erase_get?_lt {α : Type} (v : Vector α) (i : Nat)
    (hsz : v.size ≤ v.Capacity) (hi : i < v.size) (j : Nat) (hj : j < i) :
    (v.Erase i).1.get? j = v.get? j := by
  have hvc : v.Capacity = v.data.slots.length := rfl
  have hvE : (v.Erase i).1 = Vector.mk ⟨(writeN v.data.slots i (v.size - 1 - i)
      (fun k => v.data.slots.getD (i + 1 + k) none)).set (v.size - 1) none⟩
      (v.size - 1) := rfl
  rw [hvE, Vector.get?_mk, if_pos (by omega)]
  rw [List.getD_eq_getElem?_getD, List.getElem?_set_ne (by omega),
    ← List.getD_eq_getElem?_getD,
    writeN_getD _ _ _ _ _ (by omega), if_neg (by omega)]
  unfold Vector.get?
  rw [if_pos (by omega)]

theorem Vector.Erase_get?_shift {α : Type} (v : Vector α) (i : Nat)
    (hsz : v.size ≤ v.Capacity) (j : Nat) (hj1 : i ≤ j) (hj2 : j + 1 < v.size) :
    (v.Erase i).1.get? j = v.get? (j + 1) := by
  have hvc : v.Capacity = v.data.slots.length := rfl
  have hvE : (v.Erase i).1 = Vector.mk ⟨(writeN v.data.slots i (v.size - 1 - i)
      (fun k => v.data.slots.getD (i + 1 + k) none)).set (v.size - 1) none⟩
      (v.size - 1) := rfl
  rw [hvE, Vector.get?_mk, if_pos (by omega)]
  rw [List.getD_eq_getElem?_getD, List.getElem?_set_ne (by omega),
    ← List.getD_eq_getElem?_getD,
    writeN_getD _ _ _ _ _ (by omega),
    if_pos (by omega : i ≤ j ∧ j < i + (v.size - 1 - i))]
  have : i + 1 + (j - i) = j + 1 := by omega
  rw [this]
  unfold Vector.get?
  rw [if_pos (by omega)]

theorem Vector.Erase_slot_destroyed {α : Type} (v : Vector α) (i : Nat)
    (hsz : v.size ≤ v.Capacity) (h0 : 0 < v.size) :
    (v.Erase i).1.data.slots.getD (v.size - 1) none = none := by
  have hvc : v.Capacity = v.data.slots.length := rfl
  have hvE : (v.Erase i).1 = Vector.mk ⟨(writeN v.data.slots i (v.size - 1 - i)
      (fun k => v.data.slots.getD (i + 1 + k) none)).set (v.size - 1) none⟩
      (v.size - 1) := rfl
  rw [hvE]
  show ((writeN _ _ _ _).set (v.size - 1) none).getD (v.size - 1) none = none
  rw [List.getD_eq_getElem?_getD,
    List.getElem?_set_eq_of_lt _ (by rw [writeN_length]; omega)]
  rfl

theorem Vector.Resize_size {α : Type} (v : Vector α) (d : α) (n : Nat) :
    (v.Resize d n).size = n := by
  unfold Vector.Resize
  split
  · rename_i h; rw [h]
  · split <;> rfl

theorem Vector.Resize_eq_self {α : Type} (v : Vector α) (d : α) (n : Nat)
    (h : n = v.size) : v.Resize d n = v := by
  unfold Vector.Resize
  rw [if_pos h]

theorem Vector.Capacity_le_Resize {α : Type} (v : Vector α) (d : α) (n : Nat) :
    v.Capacity ≤ (v.Resize d n).Capacity := by
  unfold Vector.Resize
  split
  · exact Nat.le_refl _
  · split
    · simp only [Vector.Capacity, RawMemory.Capacity, writeN_length]
      exact Nat.le_refl _
    · show v.Capacity ≤ (writeN _ _ _ _).length
      rw [writeN_length, Vector.slots_length, Vector.Reserve_Capacity]
      omega

theorem Vector.Resize_get?_lt {α : Type} (v : Vector α) (d : α) (n : Nat)
    (hsz : v.size ≤ v.Capacity) (i : Nat) (hi : i < min v.size n) :
    (v.Resize d n).get? i = v.get? i := by
  have hvc : v.Capacity = v.data.slots.length := rfl
  have hgi : v.get? i = v.data.slots.getD i none := by
    unfold Vector.get?; rw [if_pos (by omega)]
  unfold Vector.Resize
  split
  · rfl
  · rename_i hne
    split
    · rename_i hlt
      rw [Vector.get?_mk, if_pos (by omega), hgi,
        writeN_getD _ _ _ _ _ (by omega), if_neg (by omega)]
    · rename_i hge
      have hlenr : (v.Reserve n).data.slots.length = max v.Capacity n := by
        rw [Vector.slots_length, Vector.Reserve_Capacity]
      rw [Vector.get?_mk, if_pos (by omega), hgi,
        writeN_getD _ _ _ _ _ (by rw [hlenr]; omega), if_neg (by omega),
        Vector.Reserve_slots_getD v n hsz i (by omega)]

theorem Vector.Resize_get?_new {α : Type} (v : Vector α) (d : α) (n : Nat)
    (_hsz : v.size ≤ v.Capacity) (i : Nat) (h1 : v.size ≤ i) (h2 : i < n) :
    (v.Resize d n).get? i = some d := by
  have hvc : v.Capacity = v.data.slots.length := rfl
  unfold Vector.Resize
  split
  · omega
  · split
    · omega
    · have hlenr : (v.Reserve n).data.slots.length = max v.Capacity n := by
        rw [Vector.slots_length, Vector.Reserve_Capacity]
      rw [Vector.get?_mk, if_pos (by omega),
        writeN_getD _ _ _ _ _ (by rw [hlenr]; omega),
        if_pos (by omega : v.size ≤ i ∧ i < v.size + (n - v.size))]

theorem Vector.Resize_shrink_slot {α : Type} (v : Vector α) (d : α) (n : Nat)
    (hsz : v.size ≤ v.Capacity) (hn : n < v.size) (i : Nat) (h1 : n ≤ i)
    (h2 : i < v.size) :
    (v.Resize d n).data.slots.getD i none = none := by
  have hvc : v.Capacity = v.data.slots.length := rfl
  unfold Vector.Resize
  rw [if_neg (by omega), if_pos hn]
  show (writeN _ _ _ _).getD i none = none
  rw [writeN_getD _ _ _ _ _ (by omega),
    if_pos (by omega : n ≤ i ∧ i < n + (v.size - n))]

theorem Vector.copyConstruct_size {α : Type} (other : Vector α) :
    (Vector.copyConstruct other).size = other.size := rfl

theorem Vector.copyConstruct_Capacity {α : Type} (other : Vector α) :
    (Vector.copyConstruct other).Capacity = other.size := by
  simp only [Vector.copyConstruct, Vector.Capacity, RawMemory.Capacity, writeN_length,
    List.length_replicate]

theorem Vector.copyConstruct_get? {α : Type} (other : Vector α) (i : Nat) :
    (Vector.copyConstruct other).get? i = other.get? i := by
  by_cases hi : i < other.size
  · show (Vector.mk ⟨_⟩ other.size).get? i = _
    rw [Vector.get?_mk, if_pos hi,
      writeN_getD _ _ _ _ _ (by rw [List.length_replicate]; omega),
      if_pos (by omega : 0 ≤ i ∧ i < 0 + other.size), Nat.sub_zero]
    unfold Vector.get?
    rw [if_pos hi]
  · show (Vector.mk ⟨_⟩ other.size).get? i = _
    rw [Vector.get?_mk, if_neg hi]
    unfold Vector.get?
    rw [if_neg hi]

theorem Vector.copyAssign_size {α : Type} (a rhs : Vector α) :
    (a.copyAssign rhs).size = rhs.size := by
  unfold Vector.copyAssign
  split
  · exact Vector.copyConstruct_size rhs
  · rfl

theorem Vector.copyAssign_Capacity {α : Type} (a rhs : Vector α) :
    (a.copyAssign rhs).Capacity =
      if a.Capacity < rhs.size then rhs.size else a.Capacity := by
  unfold Vector.copyAssign
  split
  · rename_i h
    exact Vector.copyConstruct_Capacity rhs
  · rename_i h
    split
    · simp only [Vector.Capacity, RawMemory.Capacity, writeN_length]
    · simp only [Vector.Capacity, RawMemory.Capacity, writeN_length]

theorem Vector.copyAssign_get? {α : Type} (a rhs : Vector α) (i : Nat) :
    (a.copyAssign rhs).get? i = rhs.get? i := by
  have hvc : a.Capacity = a.data.slots.length := rfl
  unfold Vector.copyAssign
  split
  · exact Vector.copyConstruct_get? rhs i
  · rename_i h
    by_cases hi : i < rhs.size
    · have hgi : rhs.get? i = rhs.data.slots.getD i none := by
        unfold Vector.get?; rw [if_pos hi]
      rw [hgi]
      split
      · rename_i hlt
        rw [Vector.get?_mk, if_pos hi,
          writeN_getD _ _ _ _ _ (by rw [writeN_length]; omega), if_neg (by omega),
          writeN_getD _ _ _ _ _ (by omega),
          if_pos (by omega : 0 ≤ i ∧ i < 0 + min a.size rhs.size), Nat.sub_zero]
      · rename_i hge
        by_cases him : i < a.size
        · rw [Vector.get?_mk, if_pos hi,
            writeN_getD _ _ _ _ _ (by rw [writeN_length]; omega), if_neg (by omega),
            writeN_getD _ _ _ _ _ (by omega),
            if_pos (by omega : 0 ≤ i ∧ i < 0 + min a.size rhs.size), Nat.sub_zero]
        · rw [Vector.get?_mk, if_pos hi,
            writeN_getD _ _ _ _ _ (by rw [writeN_length]; omega),
            if_pos (by omega : a.size ≤ i ∧ i < a.size + (rhs.size - a.size))]
          have : a.size + (i - a.size) = i := by omega
          rw [this]
    · rw [Vector.get?_mk, if_neg hi]
      unfold Vector.get?
      rw [if_neg hi]

/-! Claim theorems. -/

/-- C1 counterexample: with `B = [7]` (capacity 1) and `A` empty, after
`B = std::move(A)` the source `A` ends up with capacity 1, not 0 — the
`RawMemory` move-assignment used by the vector move-assignment swaps buffers
instead of emptying the source. -/
theorem C1_counterexample :
    (Vector.moveAssign ((Vector.mkEmpty Nat).PushBack 7)
      (Vector.mkEmpty Nat)).2.Capacity ≠ 0 := by decide

/-- C1 (amended): after move-construction from `A`, the new vector holds `A`'s
former length and elements and `A` is left with `Size() == 0` and
`Capacity() == 0`.  After move-assignment `B = std::move(A)`, `B` holds `A`'s
former length and elements and `A` is left with `Size() == 0`, but `A`'s buffer
and capacity become `B`'s former ones (the buffers are swapped), so
`A.Capacity() == 0` only when `B`'s prior capacity was 0. -/
theorem C1_move_transfer {α : Type} (A B : Vector α) :
    ((Vector.moveConstruct A).1.Size = A.Size ∧
     (Vector.moveConstruct A).1.elems = A.elems ∧
     (Vector.moveConstruct A).2.Size = 0 ∧
     (Vector.moveConstruct A).2.Capacity = 0) ∧
    ((Vector.moveAssign B A).1.Size = A.Size ∧
     (Vector.moveAssign B A).1.elems = A.elems ∧
     (Vector.moveAssign B A).2.Size = 0 ∧
     (Vector.moveAssign B A).2.Capacity = B.Capacity ∧
     (Vector.moveAssign B A).2.data = B.data) :=
  ⟨⟨rfl, rfl, rfl, rfl⟩, rfl, rfl, rfl, rfl, rfl⟩

/-- C2 counterexample: with `B = [5,6]` (capacity 2) and `A = [7]` (capacity 1),
the operation `B = std::move(A)` drops `B`'s capacity from 2 to 1 although `B`
is the destination, not the source, of the move, and leaves the source `A` with
capacity 2 rather than 0. -/
theorem C2_counterexample :
    ((Vector.moveAssign (((Vector.mkEmpty Nat).PushBack 5).PushBack 6)
        ((Vector.mkEmpty Nat).PushBack 7)).1.Capacity
      < (((Vector.mkEmpty Nat).PushBack 5).PushBack 6).Capacity) ∧
    (Vector.moveAssign (((Vector.mkEmpty Nat).PushBack 5).PushBack 6)
        ((Vector.mkEmpty Nat).PushBack 7)).1.Capacity ≠ 0 ∧
    (Vector.moveAssign (((Vector.mkEmpty Nat).PushBack 5).PushBack 6)
        ((Vector.mkEmpty Nat).PushBack 7)).2.Capacity ≠ 0 := by decide

/-- C2 (amended): `Capacity()` never decreases under any single-vector
operation (Reserve, Resize, PushBack, Emplace, Insert, PopBack, Erase,
copy-assignment); `Swap` and move-assignment exchange the two vectors'
capacities (so a capacity may decrease there, and a move-assignment source is
left with the destination's former capacity, not 0); move-construction leaves
its source with capacity 0. -/
theorem C2_capacity_evolution {α : Type} (op : VOp α) (v a b : Vector α) :
    (v.Capacity ≤ (op.apply v).Capacity) ∧
    ((Vector.SwapOp a b).1.Capacity = b.Capacity ∧
     (Vector.SwapOp a b).2.Capacity = a.Capacity) ∧
    ((Vector.moveAssign a b).1.Capacity = b.Capacity ∧
     (Vector.moveAssign a b).2.Capacity = a.Capacity) ∧
    (Vector.moveConstruct v).2.Capacity = 0 := by
  refine ⟨?_, ⟨rfl, rfl⟩, ⟨rfl, rfl⟩, rfl⟩
  cases op with
  | reserve n =>
    show v.Capacity ≤ (v.Reserve n).Capacity
    rw [Vector.Reserve_Capacity]; omega
  | resize d n => exact Vector.Capacity_le_Resize v d n
  | pushBack x => exact Vector.Capacity_le_PushBack v x
  | emplace i x => exact Vector.Capacity_le_Emplace v i x
  | insert i x => exact Vector.Capacity_le_Emplace v i x
  | popBack =>
    show v.Capacity ≤ v.PopBack.Capacity
    rw [Vector.PopBack_Capacity]
  | erase i =>
    show v.Capacity ≤ (v.Erase i).1.Capacity
    rw [Vector.Erase_Capacity]
  | copyAssign rhs =>
    show v.Capacity ≤ (v.copyAssign rhs).Capacity
    rw [Vector.copyAssign_Capacity]
    split <;> omega

/-- C3 counterexample: move-assigning a capacity-5 `RawMemory` into a
capacity-3 one leaves the source with capacity 3, not 0. -/
theorem C3_counterexample :
    (RawMemory.moveAssign (RawMemory.allocate Nat 3)
      (RawMemory.allocate Nat 5)).2.Capacity ≠ 0 := by decide

/-- C3 (amended): `RawMemory::operator=(RawMemory&&)` swaps the two buffers:
the destination takes the source's storage and capacity and the source takes
the destination's former storage and capacity, so the source is empty only
when the destination was.  (The `RawMemory` move constructor does leave its
source with capacity 0 and no storage.) -/
theorem C3_rawMemory_move {α : Type} (dst src : RawMemory α) :
    (RawMemory.moveAssign dst src).1 = src ∧
    (RawMemory.moveAssign dst src).2 = dst ∧
    (RawMemory.moveConstruct dst).2.Capacity = 0 ∧
    (RawMemory.moveConstruct dst).2.slots = [] :=
  ⟨rfl, rfl, rfl, rfl⟩

/-- C4: `PushBack` on a vector whose length equals its capacity `c` grows the
buffer to `max 1 (2 * c)`, yields `Size() == c + 1`, keeps the first `c`
elements unchanged in order, and puts the appended value at index `c`. -/
theorem C4_pushBack_growth {α : Type} (v : Vector α) (x : α)
    (hfull : v.Size = v.Capacity) :
    (v.PushBack x).Capacity = max 1 (2 * v.Capacity) ∧
    (v.PushBack x).Size = v.Capacity + 1 ∧
    (∀ i, i < v.Capacity → (v.PushBack x).get? i = v.get? i) ∧
    (v.PushBack x).get? v.Capacity = some x := by
  have hvs : v.Size = v.size := rfl
  refine ⟨Vector.PushBack_Capacity_grow v x hfull, ?_, ?_, ?_⟩
  · show (v.PushBack x).size = _
    rw [Vector.PushBack_size]
    omega
  · intro i hi
    exact Vector.PushBack_get?_lt v x i (by omega)
  · have hc : v.Capacity = v.size := by omega
    rw [hc]
    exact Vector.PushBack_get?_last v x (by omega)

/-- C4 witness: the spec's scenario — pushing 4 onto `[5,6]` with
length == capacity == 2 doubles the capacity to 4. -/
theorem C4_pushBack_growth_witness :
    ((((Vector.mkEmpty Nat).PushBack 5).PushBack 6).Size
      = (((Vector.mkEmpty Nat).PushBack 5).PushBack 6).Capacity) ∧
    ((((Vector.mkEmpty Nat).PushBack 5).PushBack 6).PushBack 4).Capacity
      = max 1 (2 * (((Vector.mkEmpty Nat).PushBack 5).PushBack 6).Capacity) :=
  ⟨by decide, (C4_pushBack_growth (((Vector.mkEmpty Nat).PushBack 5).PushBack 6) 4
    (by decide)).1⟩

/-- C5: copy-assignment `a = rhs` (distinct objects) makes `a`'s length and
elements equal `rhs`'s; `a`'s capacity becomes `rhs`'s length when that length
exceeded `a`'s prior capacity (a fresh copy is swapped in) and is unchanged
otherwise (storage reuse). -/
theorem C5_copyAssign_spec {α : Type} (a rhs : Vector α) :
    (a.copyAssign rhs).Size = rhs.Size ∧
    (∀ i, (a.copyAssign rhs).get? i = rhs.get? i) ∧
    (a.copyAssign rhs).Capacity =
      (if a.Capacity < rhs.Size then rhs.Size else a.Capacity) :=
  ⟨Vector.copyAssign_size a rhs, fun i => Vector.copyAssign_get? a rhs i,
   Vector.copyAssign_Capacity a rhs⟩

/-- C6: `Reserve(newCapacity)` is a no-op when `newCapacity ≤ Capacity()`;
otherwise it makes the capacity exactly `newCapacity`, with length and elements
unchanged either way.  In particular `Vector<int> v; v.Reserve(10);
v.PushBack(1);` ends with `Size() == 1` and `Capacity() == 10`. -/
theorem C6_reserve_spec {α : Type} (v : Vector α) (n : Nat) (hwf : v.WF) :
    (n ≤ v.Capacity → v.Reserve n = v) ∧
    (v.Capacity < n → (v.Reserve n).Capacity = n) ∧
    (v.Reserve n).Size = v.Size ∧
    (∀ i, (v.Reserve n).get? i = v.get? i) ∧
    ((((Vector.mkEmpty Nat).Reserve 10).PushBack 1).Size = 1 ∧
     (((Vector.mkEmpty Nat).Reserve 10).PushBack 1).Capacity = 10) := by
  refine ⟨?_, ?_, Vector.Reserve_size v n, fun i => Vector.Reserve_get? v n hwf.1 i,
    by decide, by decide⟩
  · intro h
    unfold Vector.Reserve
    rw [if_pos h]
  · intro h
    rw [Vector.Reserve_Capacity]
    omega

/-- C6 witness: reserving 10 on the well-formed vector `[2]` (capacity 1) makes
the capacity exactly 10. -/
theorem C6_reserve_spec_witness :
    ((Vector.mkEmpty Nat).PushBack 2).WF ∧
    ((Vector.mkEmpty Nat).PushBack 2).Capacity < 10 ∧
    (((Vector.mkEmpty Nat).PushBack 2).Reserve 10).Capacity = 10 :=
  ⟨by decide, by decide,
   (C6_reserve_spec ((Vector.mkEmpty Nat).PushBack 2) 10 (by decide)).2.1 (by decide)⟩

/-- C7: after `Resize(n)` on a vector of prior length `m`: `Size() == n`,
elements at indices below `min m n` are unchanged, if `n > m` the new trailing
slots hold value-constructed elements, if `n < m` the trailing slots are
destroyed, and if `n == m` the vector is unchanged.  `d` is the
value-initialized element of the element type. -/
theorem C7_resize_spec {α : Type} (v : Vector α) (d : α) (n : Nat) (hwf : v.WF) :
    (v.Resize d n).Size = n ∧
    (∀ i, i < min v.Size n → (v.Resize d n).get? i = v.get? i) ∧
    (∀ i, v.Size ≤ i → i < n → (v.Resize d n).get? i = some d) ∧
    (n < v.Size → ∀ i, n ≤ i → i < v.Size →
      (v.Resize d n).data.slots.getD i none = none) ∧
    (n = v.Size → v.Resize d n = v) := by
  refine ⟨Vector.Resize_size v d n, ?_, ?_, ?_, ?_⟩
  · intro i hi
    exact Vector.Resize_get?_lt v d n hwf.1 i hi
  · intro i h1 h2
    exact Vector.Resize_get?_new v d n hwf.1 i h1 h2
  · intro hn i h1 h2
    exact Vector.Resize_shrink_slot v d n hwf.1 hn i h1 h2
  · intro h
    exact Vector.Resize_eq_self v d n h

/-- C7 witness: resizing `[1,2,3]` to 5 with value-initialized element 0 keeps
index 1 and default-constructs index 4; resizing it to 2 destroys slot 2. -/
theorem C7_resize_spec_witness :
    ((((Vector.mkEmpty Nat).PushBack 1).PushBack 2).PushBack 3).WF ∧
    ((((((Vector.mkEmpty Nat).PushBack 1).PushBack 2).PushBack 3).Resize 0 5).Size = 5 ∧
     (((((Vector.mkEmpty Nat).PushBack 1).PushBack 2).PushBack 3).Resize 0 5).get? 1
       = ((((Vector.mkEmpty Nat).PushBack 1).PushBack 2).PushBack 3).get? 1 ∧
     (((((Vector.mkEmpty Nat).PushBack 1).PushBack 2).PushBack 3).Resize 0 5).get? 4
       = some 0) ∧
    (((((Vector.mkEmpty Nat).PushBack 1).PushBack 2).PushBack 3).Resize 0 2).data.slots.getD
      2 none = none :=
  ⟨by decide,
   ⟨(C7_resize_spec ((((Vector.mkEmpty Nat).PushBack 1).PushBack 2).PushBack 3) 0 5
      (by decide)).1,
    (C7_resize_spec ((((Vector.mkEmpty Nat).PushBack 1).PushBack 2).PushBack 3) 0 5
      (by decide)).2.1 1 (by decide),
    (C7_resize_spec ((((Vector.mkEmpty Nat).PushBack 1).PushBack 2).PushBack 3) 0 5
      (by decide)).2.2.1 4 (by decide) (by decide)⟩,
   (C7_resize_spec ((((Vector.mkEmpty Nat).PushBack 1).PushBack 2).PushBack 3) 0 2
      (by decide)).2.2.2.1 (by decide) 2 (by decide) (by decide)⟩

/-- C8: for a well-formed vector of length `n` and `i ≤ n`, `Emplace`/`Insert`
at `begin() + i` yields length `n + 1`, the inserted value at index `i`,
indices below `i` unchanged, the former elements of `[i, n)` shifted one slot
rightward, and returns the iterator at index `i`.  Concretely,
`Insert(begin() + 1, 99)` on `[1,2,3]` yields `[1,99,2,3]` of length 4. -/
theorem C8_emplace_insert_spec {α : Type} (v : Vector α) (i : Nat) (x : α)
    (hwf : v.WF) (hi : i ≤ v.Size) :
    (v.Emplace i x).1.Size = v.Size + 1 ∧
    (v.Emplace i x).2 = i ∧
    (v.Emplace i x).1.get? i = some x ∧
    (∀ j, j < i → (v.Emplace i x).1.get? j = v.get? j) ∧
    (∀ j, i ≤ j → j < v.Size → (v.Emplace i x).1.get? (j + 1) = v.get? j) ∧
    v.Insert i x = v.Emplace i x ∧
    ((((((Vector.mkEmpty Nat).PushBack 1).PushBack 2).PushBack 3).Insert 1 99).1.elems
      = [1, 99, 2, 3] ∧
     (((((Vector.mkEmpty Nat).PushBack 1).PushBack 2).PushBack 3).Insert 1 99).1.Size
      = 4) := by
  refine ⟨?_, Vector.Emplace_idx v i x, Vector.Emplace_get?_at v i x hwf.1 hi, ?_, ?_,
    rfl, by decide, by decide⟩
  · show (v.Emplace i x).1.size = _
    rw [Vector.Emplace_size]
    rfl
  · intro j hj
    exact Vector.Emplace_get?_lt v i x hwf.1 hi j hj
  · intro j hj1 hj2
    exact Vector.Emplace_get?_shift v i x hwf.1 hi j hj1 hj2

/-- C8 witness: inserting 99 at index 1 of the well-formed vector `[1,2,3]`
puts 99 at index 1 and shifts the former index-1 element to index 2. -/
theorem C8_emplace_insert_spec_witness :
    ((((Vector.mkEmpty Nat).PushBack 1).PushBack 2).PushBack 3).WF ∧
    (1 ≤ ((((Vector.mkEmpty Nat).PushBack 1).PushBack 2).PushBack 3).Size) ∧
    (((((Vector.mkEmpty Nat).PushBack 1).PushBack 2).PushBack 3).Emplace 1 99).1.get? 1
      = some 99 ∧
    (((((Vector.mkEmpty Nat).PushBack 1).PushBack 2).PushBack 3).Emplace 1 99).1.get? 2
      = ((((Vector.mkEmpty Nat).PushBack 1).PushBack 2).PushBack 3).get? 1 :=
  ⟨by decide, by decide,
   (C8_emplace_insert_spec ((((Vector.mkEmpty Nat).PushBack 1).PushBack 2).PushBack 3)
      1 99 (by decide) (by decide)).2.2.1,
   (C8_emplace_insert_spec ((((Vector.mkEmpty Nat).PushBack 1).PushBack 2).PushBack 3)
      1 99 (by decide) (by decide)).2.2.2.2.1 1 (by decide) (by decide)⟩

/-- C9: for a well-formed non-empty vector and `i < Size()`, `Erase` at
`begin() + i` shifts the elements after `i` one slot left, decrements the
length, and returns the iterator at index `i`.  Concretely,
`Erase(begin() + 2)` on `[1,99,2,3]` yields `[1,99,3]` of length 3. -/
theorem C9_erase_spec {α : Type} (v : Vector α) (i : Nat) (hwf : v.WF)
    (hi : i < v.Size) :
    (v.Erase i).1.Size = v.Size - 1 ∧
    (v.Erase i).2 = i ∧
    (∀ j, j < i → (v.Erase i).1.get? j = v.get? j) ∧
    (∀ j, i ≤ j → j + 1 < v.Size → (v.Erase i).1.get? j = v.get? (j + 1)) ∧
    ((((((((Vector.mkEmpty Nat).PushBack 1).PushBack 2).PushBack 3).Insert 1
        99).1).Erase 2).1.elems = [1, 99, 3] ∧
     (((((((Vector.mkEmpty Nat).PushBack 1).PushBack 2).PushBack 3).Insert 1
        99).1).Erase 2).1.Size = 3) := by
  refine ⟨rfl, rfl, ?_, ?_, by decide, by decide⟩
  · intro j hj
    exact Vector.Erase_get?_lt v i hwf.1 hi j hj
  · intro j hj1 hj2
    exact Vector.Erase_get?_shift v i hwf.1 j hj1 hj2

/-- C9 witness: erasing index 2 of the well-formed vector `[1,99,2,3]` moves
the index-3 element down to index 2. -/
theorem C9_erase_spec_witness :
    (((((Vector.mkEmpty Nat).PushBack 1).PushBack 99).PushBack 2).PushBack 3).WF ∧
    (2 < (((((Vector.mkEmpty Nat).PushBack 1).PushBack 99).PushBack 2).PushBack 3).Size) ∧
    ((((((Vector.mkEmpty Nat).PushBack 1).PushBack 99).PushBack 2).PushBack 3).Erase
      2).1.get? 2
      = (((((Vector.mkEmpty Nat).PushBack 1).PushBack 99).PushBack 2).PushBack 3).get? 3 :=
  ⟨by decide, by decide,
   (C9_erase_spec (((((Vector.mkEmpty Nat).PushBack 1).PushBack 99).PushBack 2).PushBack 3)
      2 (by decide) (by decide)).2.2.2.1 2 (by decide) (by decide)⟩

/-- C10: self move-assignment `v = std::move(v)` leaves the buffer and capacity
unchanged but zeroes `Size()`, so every previous element becomes inaccessible
(no slot is ever destroyed: the buffer's contents are untouched). -/
theorem C10_moveAssignSelf_spec {α : Type} (v : Vector α) :
    v.moveAssignSelf.Capacity = v.Capacity ∧
    v.moveAssignSelf.data = v.data ∧
    v.moveAssignSelf.data.slots = v.data.slots ∧
    v.moveAssignSelf.Size = 0 ∧
    (∀ i, v.moveAssignSelf.get? i = none) := by
  refine ⟨rfl, rfl, rfl, rfl, fun i => ?_⟩
  unfold Vector.moveAssignSelf Vector.get?
  simp
